import Mathlib

/-!
Shallow embedding of the CheckerChain Elrond soulbound-token contract
(src/soulbound/src/soulbound.rs) and proofs of the specification claims.

Addresses (`ManagedAddress`) are modelled as their raw byte lists, token
identifiers (`BigUint`) as `Nat`, and the external crypto collaborator
(`keccak256`, `verify_secp256k1_legacy`) as a record of functions.  Each
endpoint is a function from its arguments and the contract storage to an
`Outcome`: the returned value (or the error of the first failing
`require!`), the storage after the call, and the list of emitted
`transfer` events.  A failing `require!` aborts the invocation at that
point, returning the storage as it stood there.
-/

namespace Soulbound

/-- Raw bytes, e.g. of a `ManagedBuffer`. -/
abbrev Bytes := List Nat

/-- A `ManagedAddress`, as its raw bytes. -/
abbrev Address := List Nat

/-- `ManagedAddress::zero()`: 32 zero bytes, the null identity / burn wallet. -/
def zeroAddress : Address := List.replicate 32 0

/-- The external crypto collaborator (`self.crypto()`). -/
structure Crypto where
  keccak256 : Bytes → Bytes
  verify_secp256k1_legacy : Bytes → Bytes → Bytes → Bool

/-- The error of each `require!` site of the contract. -/
inductive Err where
  /-- unequip: sender must be owner -/
  | Unauthorized : Err
  /-- token not minted -/
  | NotMinted : Err
  /-- give: cannot give from self / take: cannot take from self -/
  | SelfTransfer : Err
  /-- safeCheckAgreement: invalid signature -/
  | InvalidSignature : Err
  /-- safeCheckAgreement: already used -/
  | AgreementAlreadyUsed : Err
deriving DecidableEq, Repr

/-- A `transfer` event `(from, to, token_id)`. -/
abbrev Event := Address × Address × Nat

/-- The contract storage: one field per `storage_mapper`.  The mapped
storages are total functions, their value on never-written keys being the
storage default (zero address, `false`, `0`). -/
structure State where
  token_name : String
  token_symbol : String
  next_token_id : Nat
  token_owner : Nat → Address
  used_hash : Nat → Bool
  balance : Address → Nat

/-- Point update of a mapped storage. -/
def upd {α β : Type} [DecidableEq α] (f : α → β) (k : α) (v : β) : α → β :=
  fun x => if x = k then v else f x

/-- Result of an endpoint invocation: return value or abort error, the
storage afterwards, and the events emitted. -/
structure Outcome (α : Type) where
  result : Except Err α
  state : State
  events : List Event

instance {ε α : Type} [DecidableEq ε] [DecidableEq α] : DecidableEq (Except ε α) := by
  intro a b
  cases a <;> cases b
  case error.error e f =>
    exact if h : e = f then isTrue (by rw [h]) else isFalse (by simp [h])
  case ok.ok x y =>
    exact if h : x = y then isTrue (by rw [h]) else isFalse (by simp [h])
  case error.ok e x => exact isFalse (by simp)
  case ok.error x e => exact isFalse (by simp)

/-- Big-endian byte encoding of a `BigUint` (`to_bytes_be_buffer`); zero
encodes as the empty buffer. -/
def to_bytes_be (n : Nat) : Bytes :=
  if _h : n = 0 then [] else to_bytes_be (n / 256) ++ [n % 256]
decreasing_by exact Nat.div_lt_self (Nat.pos_of_ne_zero _h) (by decide)

/-- Buffer from a `BigUint` (`get_buffer_from_biguint`). -/
def get_buffer_from_biguint (number : Nat) : Bytes :=
  to_bytes_be number

/-- The consent digest (`get_hash`): keccak256 of
active bytes ++ passive bytes ++ big-endian token id bytes. -/
def get_hash (c : Crypto) (active passive : Address) (token_id : Nat) : Bytes :=
  c.keccak256 (active ++ passive ++ get_buffer_from_biguint token_id)

/-- Consent verification (`safe_check_agreement`): first the signature is
checked against the passive identity's bytes over the digest, then the
replay flag; on success the token id is returned.  No storage is written. -/
def safe_check_agreement (c : Crypto) (active passive : Address) (token_id : Nat)
    (signature : Bytes) (s : State) : Except Err Nat :=
  let hash := get_hash c active passive token_id
  if c.verify_secp256k1_legacy passive hash signature = false then
    .error .InvalidSignature
  else if s.used_hash token_id = true then
    .error .AgreementAlreadyUsed
  else
    .ok token_id

/-- Ownership write plus event (`mint`). -/
def mint (fromA toA : Address) (token_id : Nat) (s : State) : State × List Event :=
  ({ s with token_owner := upd s.token_owner token_id toA },
   [(fromA, toA, token_id)])

/-- Ownership reset to the zero address plus event (`burn`). -/
def burn (token_id : Nat) (s : State) : State × List Event :=
  let burn_wallet := zeroAddress
  let token_owner := s.token_owner token_id
  ({ s with token_owner := upd s.token_owner token_id burn_wallet },
   [(token_owner, burn_wallet, token_id)])

/-- Endpoint `give(toA, token_id, signature)`; the caller is the `from`
role (active), `toA` is passive.  On success the owner is set, the event is
emitted, and the used flag is set. -/
def give (c : Crypto) (caller toA : Address) (token_id : Nat) (signature : Bytes)
    (s : State) : Outcome Nat :=
  if caller = toA then ⟨.error .SelfTransfer, s, []⟩
  else if s.next_token_id ≤ token_id then ⟨.error .NotMinted, s, []⟩
  else
    match safe_check_agreement c caller toA token_id signature s with
    | .error e => ⟨.error e, s, []⟩
    | .ok tid =>
        let ms := mint caller toA tid s
        ⟨.ok tid, { ms.1 with used_hash := upd ms.1.used_hash tid true }, ms.2⟩

/-- Endpoint `take(from, token_id, signature)`; the caller is the `toA`
role (active), `from` is passive.  On success only the used flag is set:
the ownership record is not touched and no event is emitted. -/
def take (c : Crypto) (caller fromA : Address) (token_id : Nat) (signature : Bytes)
    (s : State) : Outcome Nat :=
  if caller = fromA then ⟨.error .SelfTransfer, s, []⟩
  else if s.next_token_id ≤ token_id then ⟨.error .NotMinted, s, []⟩
  else
    match safe_check_agreement c caller fromA token_id signature s with
    | .error e => ⟨.error e, s, []⟩
    | .ok tid =>
        ⟨.ok tid, { s with used_hash := upd s.used_hash tid true }, []⟩

/-- Endpoint `uneqip(token_id)` (the source's spelling): the caller must
be the owner, the id must be minted; then the used flag is cleared and the
token burnt (owner reset to the zero address, event emitted). -/
def uneqip (caller : Address) (token_id : Nat) (s : State) : Outcome Unit :=
  let token_owner := s.token_owner token_id
  if caller = token_owner then
    if s.next_token_id ≤ token_id then ⟨.error .NotMinted, s, []⟩
    else
      let s1 : State := { s with used_hash := upd s.used_hash token_id false }
      let bs := burn token_id s1
      ⟨.ok (), bs.1, bs.2⟩
  else ⟨.error .Unauthorized, s, []⟩

/-- Storage right after `init(name, symbol)`: name and symbol set, every
other storage at its default. -/
def initState (name symbol : String) (nextId : Nat) : State :=
  { token_name := name
    token_symbol := symbol
    next_token_id := nextId
    token_owner := fun _ => zeroAddress
    used_hash := fun _ => false
    balance := fun _ => 0 }

/-- One endpoint invocation, by anybody with any arguments, successful or
not. -/
inductive Step : State → State → Prop where
  | give (c : Crypto) (caller toA : Address) (token_id : Nat) (signature : Bytes)
      (s : State) : Step s (give c caller toA token_id signature s).state
  | take (c : Crypto) (caller fromA : Address) (token_id : Nat) (signature : Bytes)
      (s : State) : Step s (take c caller fromA token_id signature s).state
  | uneqip (caller : Address) (token_id : Nat) (s : State) :
      Step s (uneqip caller token_id s).state

/-- States reachable from a given state by endpoint invocations. -/
inductive Reachable (s0 : State) : State → Prop where
  | refl : Reachable s0 s0
  | step {s s' : State} : Reachable s0 s → Step s s' → Reachable s0 s'

/-- View `getUserBalance`. -/
def getUserBalance (s : State) (owner : Address) : Nat :=
  s.balance owner

/-! Concrete fixtures used by witnesses and counterexamples: a crypto
collaborator whose verification always succeeds (resp. always fails) and
whose hash is the identity on byte lists, two distinct 32-byte addresses,
and a signature value. -/

def cryptoId : Crypto :=
  { keccak256 := fun b => b, verify_secp256k1_legacy := fun _ _ _ => true }

def cryptoNever : Crypto :=
  { keccak256 := fun b => b, verify_secp256k1_legacy := fun _ _ _ => false }

def addrA : Address := 1 :: List.replicate 31 0

def addrB : Address := 2 :: List.replicate 31 0

def sig0 : Bytes := List.replicate 32 7

/-- Storage after `init` with one minted token id (`next_token_id = 1`). -/
def st1 : State := initState "CheckerSBT" "CSBT" 1

/-- Like `st1` but with token 0 owned by `addrB`. -/
def stOwned : State :=
  { st1 with token_owner := upd st1.token_owner 0 addrB }

/-- Like `st1` but with the used flag already set for token 0. -/
def stUsed : State :=
  { st1 with used_hash := upd st1.used_hash 0 true }

/-! Characterisation lemmas, shared by the claim theorems. -/

/-- On the four success conditions, `give` writes the owner, sets the used
flag, emits the transfer event and returns the token id. -/
theorem give_ok_eq (c : Crypto) (caller other : Address) (tid : Nat) (sig : Bytes)
    (s : State) (h1 : caller ≠ other) (h2 : tid < s.next_token_id)
    (h3 : c.verify_secp256k1_legacy other (get_hash c caller other tid) sig = true)
    (h4 : s.used_hash tid = false) :
    give c caller other tid sig s =
      ⟨.ok tid,
       { s with token_owner := upd s.token_owner tid other,
                used_hash := upd s.used_hash tid true },
       [(caller, other, tid)]⟩ := by
  unfold give safe_check_agreement mint
  rw [if_neg h1, if_neg (by omega)]
  simp [h3, h4]

/-- On the four success conditions, `take` only sets the used flag. -/
theorem take_ok_eq (c : Crypto) (caller other : Address) (tid : Nat) (sig : Bytes)
    (s : State) (h1 : caller ≠ other) (h2 : tid < s.next_token_id)
    (h3 : c.verify_secp256k1_legacy other (get_hash c caller other tid) sig = true)
    (h4 : s.used_hash tid = false) :
    take c caller other tid sig s =
      ⟨.ok tid, { s with used_hash := upd s.used_hash tid true }, []⟩ := by
  unfold take safe_check_agreement
  rw [if_neg h1, if_neg (by omega)]
  simp [h3, h4]

/-- On its two success conditions, `uneqip` clears the used flag, resets
the owner to the zero address and emits the burn event. -/
theorem uneqip_ok_eq (caller : Address) (tid : Nat) (s : State)
    (h1 : caller = s.token_owner tid) (h2 : tid < s.next_token_id) :
    uneqip caller tid s =
      ⟨.ok (),
       { s with token_owner := upd s.token_owner tid zeroAddress,
                used_hash := upd s.used_hash tid false },
       [(s.token_owner tid, zeroAddress, tid)]⟩ := by
  unfold uneqip burn
  rw [if_pos h1, if_neg (by omega)]

/-- Projection form of `give_ok_eq` for the storage after the call. -/
theorem give_ok_state (c : Crypto) (caller other : Address) (tid : Nat) (sig : Bytes)
    (s : State) (h1 : caller ≠ other) (h2 : tid < s.next_token_id)
    (h3 : c.verify_secp256k1_legacy other (get_hash c caller other tid) sig = true)
    (h4 : s.used_hash tid = false) :
    (give c caller other tid sig s).state =
      { s with token_owner := upd s.token_owner tid other,
               used_hash := upd s.used_hash tid true } := by
  rw [give_ok_eq c caller other tid sig s h1 h2 h3 h4]

/-- Projection form of `uneqip_ok_eq` for the storage after the call. -/
theorem uneqip_ok_state (caller : Address) (tid : Nat) (s : State)
    (h1 : caller = s.token_owner tid) (h2 : tid < s.next_token_id) :
    (uneqip caller tid s).state =
      { s with token_owner := upd s.token_owner tid zeroAddress,
               used_hash := upd s.used_hash tid false } := by
  rw [uneqip_ok_eq caller tid s h1 h2]

/-- A successful `give` implies all four success conditions. -/
theorem give_ok_inv (c : Crypto) (caller other : Address) (tid : Nat) (sig : Bytes)
    (s : State) (h : (give c caller other tid sig s).result = .ok tid) :
    caller ≠ other ∧ tid < s.next_token_id ∧
      c.verify_secp256k1_legacy other (get_hash c caller other tid) sig = true ∧
      s.used_hash tid = false := by
  by_cases h1 : caller = other
  · simp [give, h1] at h
  by_cases h2 : s.next_token_id ≤ tid
  · simp [give, h1, h2] at h
  rcases hv : c.verify_secp256k1_legacy other (get_hash c caller other tid) sig with _ | _
  · simp [give, safe_check_agreement, h1, h2, hv] at h
  rcases hu : s.used_hash tid with _ | _
  · exact ⟨h1, by omega, rfl, rfl⟩
  · simp [give, safe_check_agreement, h1, h2, hv, hu] at h

/-- A successful `take` implies all four success conditions. -/
theorem take_ok_inv (c : Crypto) (caller other : Address) (tid : Nat) (sig : Bytes)
    (s : State) (h : (take c caller other tid sig s).result = .ok tid) :
    caller ≠ other ∧ tid < s.next_token_id ∧
      c.verify_secp256k1_legacy other (get_hash c caller other tid) sig = true ∧
      s.used_hash tid = false := by
  by_cases h1 : caller = other
  · simp [take, h1] at h
  by_cases h2 : s.next_token_id ≤ tid
  · simp [take, h1, h2] at h
  rcases hv : c.verify_secp256k1_legacy other (get_hash c caller other tid) sig with _ | _
  · simp [take, safe_check_agreement, h1, h2, hv] at h
  rcases hu : s.used_hash tid with _ | _
  · exact ⟨h1, by omega, rfl, rfl⟩
  · simp [take, safe_check_agreement, h1, h2, hv, hu] at h

/-- A successful `uneqip` implies both success conditions. -/
theorem uneqip_ok_inv (caller : Address) (tid : Nat) (s : State)
    (h : (uneqip caller tid s).result = .ok ()) :
    caller = s.token_owner tid ∧ tid < s.next_token_id := by
  by_cases h1 : caller = s.token_owner tid
  · by_cases h2 : s.next_token_id ≤ tid
    · simp [uneqip, h1, h2] at h
    · exact ⟨h1, by omega⟩
  · simp [uneqip, h1] at h

/-- C1: `take(from, id, sig)` succeeds (returning `id`) iff `id < nextId`,
the caller differs from `from`, the used flag of `id` is clear, and the
signature verifies the digest `(caller, from, id)` against `from`; on
success the used flag of `id` is set and the ownership record is left
completely unchanged (the take path never writes `Owner`). -/
theorem C1_take_spec (c : Crypto) (caller fromA : Address) (tid : Nat) (sig : Bytes)
    (s : State) :
    ((take c caller fromA tid sig s).result = .ok tid ↔
      (tid < s.next_token_id ∧ caller ≠ fromA ∧ s.used_hash tid = false ∧
        c.verify_secp256k1_legacy fromA (get_hash c caller fromA tid) sig = true)) ∧
    ((take c caller fromA tid sig s).result = .ok tid →
      (take c caller fromA tid sig s).state.used_hash tid = true ∧
      ∀ i, (take c caller fromA tid sig s).state.token_owner i = s.token_owner i) := by
  constructor
  · constructor
    · intro h
      obtain ⟨h1, h2, h3, h4⟩ := take_ok_inv c caller fromA tid sig s h
      exact ⟨h2, h1, h4, h3⟩
    · rintro ⟨h2, h1, h4, h3⟩
      rw [take_ok_eq c caller fromA tid sig s h1 h2 h3 h4]
  · intro h
    obtain ⟨h1, h2, h3, h4⟩ := take_ok_inv c caller fromA tid sig s h
    rw [take_ok_eq c caller fromA tid sig s h1 h2 h3 h4]
    refine ⟨by simp [upd], fun i => rfl⟩

/-- Witness for C1: a concrete successful `take` sets the used flag and
leaves the owner storage unchanged. -/
theorem C1_take_spec_witness :
    (take cryptoId addrA addrB 0 sig0 st1).state.used_hash 0 = true ∧
    (take cryptoId addrA addrB 0 sig0 st1).state.token_owner 0 = st1.token_owner 0 := by
  have h := (C1_take_spec cryptoId addrA addrB 0 sig0 st1).2 (by decide)
  exact ⟨h.1, h.2 0⟩

/-- C3: `give(to, id, sig)` succeeds (returning `id`) iff `id < nextId`,
the caller differs from `to`, the used flag of `id` is clear, and the
signature verifies the digest `(caller, to, id)` against `to`; on success
`Owner[id] = to`, the used flag of `id` is set, and the transfer event
`(caller, to, id)` is emitted. -/
theorem C3_give_spec (c : Crypto) (caller toA : Address) (tid : Nat) (sig : Bytes)
    (s : State) :
    ((give c caller toA tid sig s).result = .ok tid ↔
      (tid < s.next_token_id ∧ caller ≠ toA ∧ s.used_hash tid = false ∧
        c.verify_secp256k1_legacy toA (get_hash c caller toA tid) sig = true)) ∧
    ((give c caller toA tid sig s).result = .ok tid →
      (give c caller toA tid sig s).state.token_owner tid = toA ∧
      (give c caller toA tid sig s).state.used_hash tid = true ∧
      (give c caller toA tid sig s).events = [(caller, toA, tid)]) := by
  constructor
  · constructor
    · intro h
      obtain ⟨h1, h2, h3, h4⟩ := give_ok_inv c caller toA tid sig s h
      exact ⟨h2, h1, h4, h3⟩
    · rintro ⟨h2, h1, h4, h3⟩
      rw [give_ok_eq c caller toA tid sig s h1 h2 h3 h4]
  · intro h
    obtain ⟨h1, h2, h3, h4⟩ := give_ok_inv c caller toA tid sig s h
    rw [give_ok_eq c caller toA tid sig s h1 h2 h3 h4]
    refine ⟨by simp [upd], by simp [upd], rfl⟩

/-- Witness for C3: a concrete successful `give` writes the owner, sets
the used flag and emits the transfer event. -/
theorem C3_give_spec_witness :
    (give cryptoId addrA addrB 0 sig0 st1).state.token_owner 0 = addrB ∧
    (give cryptoId addrA addrB 0 sig0 st1).state.used_hash 0 = true ∧
    (give cryptoId addrA addrB 0 sig0 st1).events = [(addrA, addrB, 0)] :=
  (C3_give_spec cryptoId addrA addrB 0 sig0 st1).2 (by decide)

/-- C5: `uneqip(id)` succeeds iff the caller is the stored owner (else
`Unauthorized`) and `id < nextId` (else `NotMinted`); on success the owner
is reset to the zero address, the used flag is cleared, and the transfer
event `(oldOwner, zero, id)` is emitted. -/
theorem C5_uneqip_spec (caller : Address) (tid : Nat) (s : State) :
    ((uneqip caller tid s).result = .ok () ↔
      (caller = s.token_owner tid ∧ tid < s.next_token_id)) ∧
    (caller ≠ s.token_owner tid →
      (uneqip caller tid s).result = .error .Unauthorized) ∧
    (caller = s.token_owner tid → s.next_token_id ≤ tid →
      (uneqip caller tid s).result = .error .NotMinted) ∧
    ((uneqip caller tid s).result = .ok () →
      (uneqip caller tid s).state.token_owner tid = zeroAddress ∧
      (uneqip caller tid s).state.used_hash tid = false ∧
      (uneqip caller tid s).events = [(s.token_owner tid, zeroAddress, tid)]) := by
  refine ⟨⟨fun h => uneqip_ok_inv caller tid s h, ?_⟩, ?_, ?_, ?_⟩
  · rintro ⟨h1, h2⟩
    rw [uneqip_ok_eq caller tid s h1 h2]
  · intro h1
    simp [uneqip, h1]
  · intro h1 h2
    simp [uneqip, h1, h2]
  · intro h
    obtain ⟨h1, h2⟩ := uneqip_ok_inv caller tid s h
    rw [uneqip_ok_eq caller tid s h1 h2]
    refine ⟨by simp [upd], by simp [upd], rfl⟩

/-- Witness for C5: a concrete successful `uneqip` by the owner resets
the owner, clears the flag and emits the burn event. -/
theorem C5_uneqip_spec_witness :
    (uneqip addrB 0 stOwned).state.token_owner 0 = zeroAddress ∧
    (uneqip addrB 0 stOwned).state.used_hash 0 = false ∧
    (uneqip addrB 0 stOwned).events = [(stOwned.token_owner 0, zeroAddress, 0)] :=
  (C5_uneqip_spec addrB 0 stOwned).2.2.2 (by decide)

/-- An erroring `give` leaves the storage untouched and emits nothing. -/
theorem give_error_frame (c : Crypto) (caller other : Address) (tid : Nat) (sig : Bytes)
    (s : State) (e : Err) (h : (give c caller other tid sig s).result = .error e) :
    (give c caller other tid sig s).state = s ∧
      (give c caller other tid sig s).events = [] := by
  by_cases h1 : caller = other
  · simp [give, h1]
  · by_cases h2 : s.next_token_id ≤ tid
    · simp [give, h1, h2]
    · rcases hs : safe_check_agreement c caller other tid sig s with _ | _
      · simp [give, h1, h2, hs]
      · simp [give, h1, h2, hs] at h

/-- An erroring `take` leaves the storage untouched and emits nothing. -/
theorem take_error_frame (c : Crypto) (caller other : Address) (tid : Nat) (sig : Bytes)
    (s : State) (e : Err) (h : (take c caller other tid sig s).result = .error e) :
    (take c caller other tid sig s).state = s ∧
      (take c caller other tid sig s).events = [] := by
  by_cases h1 : caller = other
  · simp [take, h1]
  · by_cases h2 : s.next_token_id ≤ tid
    · simp [take, h1, h2]
    · rcases hs : safe_check_agreement c caller other tid sig s with _ | _
      · simp [take, h1, h2, hs]
      · simp [take, h1, h2, hs] at h

/-- An erroring `uneqip` leaves the storage untouched and emits nothing. -/
theorem uneqip_error_frame (caller : Address) (tid : Nat) (s : State) (e : Err)
    (h : (uneqip caller tid s).result = .error e) :
    (uneqip caller tid s).state = s ∧ (uneqip caller tid s).events = [] := by
  by_cases h1 : caller = s.token_owner tid
  · by_cases h2 : s.next_token_id ≤ tid
    · simp [uneqip, h1, h2]
    · simp [uneqip, h1, h2] at h
  · simp [uneqip, h1]

/-- C6: whenever `give`, `take` or `uneqip` fails with any error, the
storage after the call equals the storage before it and no event is
emitted: every `require!` aborts before any mutation. -/
theorem C6_abort_atomicity (c : Crypto) (caller other : Address) (tid : Nat)
    (sig : Bytes) (s : State) (e : Err) :
    ((give c caller other tid sig s).result = .error e →
      (give c caller other tid sig s).state = s ∧
        (give c caller other tid sig s).events = []) ∧
    ((take c caller other tid sig s).result = .error e →
      (take c caller other tid sig s).state = s ∧
        (take c caller other tid sig s).events = []) ∧
    ((uneqip caller tid s).result = .error e →
      (uneqip caller tid s).state = s ∧ (uneqip caller tid s).events = []) :=
  ⟨give_error_frame c caller other tid sig s e,
   take_error_frame c caller other tid sig s e,
   uneqip_error_frame caller tid s e⟩

/-- Witness for C6: a concrete self-transfer failure leaves the storage
untouched and emits no event. -/
theorem C6_abort_atomicity_witness :
    (give cryptoId addrA addrA 0 sig0 st1).state = st1 ∧
      (give cryptoId addrA addrA 0 sig0 st1).events = [] :=
  (C6_abort_atomicity cryptoId addrA addrA 0 sig0 st1 .SelfTransfer).1 (by decide)

/-- C4 counterexample: in a state whose used flag for token 0 is set, a
give by `addrA` to `addrB` (distinct, token minted) with a signature the
crypto collaborator rejects fails with `InvalidSignature`, not with
`AgreementAlreadyUsed`: the signature check is performed before the
replay-flag check, contradicting the claim that `AgreementAlreadyUsed` is
returned regardless of signature validity. -/
theorem C4_cex :
    addrA ≠ addrB ∧ 0 < stUsed.next_token_id ∧ stUsed.used_hash 0 = true ∧
    (give cryptoNever addrA addrB 0 sig0 stUsed).result = .error .InvalidSignature ∧
    (give cryptoNever addrA addrB 0 sig0 stUsed).result ≠ .error .AgreementAlreadyUsed := by
  decide

/-- C4 amended: `safe_check_agreement` checks the signature first: past
the self-transfer and minted-range checks, an invalid signature yields
`InvalidSignature` even when the used flag is set, and only a valid
signature together with a set used flag yields `AgreementAlreadyUsed`.
Resubmitting an identical previously successful `give`/`take` call does
fail with `AgreementAlreadyUsed` (its signature still verifies). -/
theorem C4_check_order_amended (c : Crypto) (caller other : Address) (tid : Nat)
    (sig : Bytes) (s : State) :
    (caller ≠ other → tid < s.next_token_id →
      ((c.verify_secp256k1_legacy other (get_hash c caller other tid) sig = false →
          (give c caller other tid sig s).result = .error .InvalidSignature ∧
          (take c caller other tid sig s).result = .error .InvalidSignature) ∧
       (c.verify_secp256k1_legacy other (get_hash c caller other tid) sig = true →
          s.used_hash tid = true →
          (give c caller other tid sig s).result = .error .AgreementAlreadyUsed ∧
          (take c caller other tid sig s).result = .error .AgreementAlreadyUsed))) ∧
    ((give c caller other tid sig s).result = .ok tid →
      (give c caller other tid sig
        ((give c caller other tid sig s).state)).result = .error .AgreementAlreadyUsed) ∧
    ((take c caller other tid sig s).result = .ok tid →
      (take c caller other tid sig
        ((take c caller other tid sig s).state)).result = .error .AgreementAlreadyUsed) := by
  refine ⟨fun h1 h2 => ⟨fun hv => ⟨?_, ?_⟩, fun hv hu => ⟨?_, ?_⟩⟩, ?_, ?_⟩
  · unfold give safe_check_agreement
    rw [if_neg h1, if_neg (by omega)]
    simp [hv]
  · unfold take safe_check_agreement
    rw [if_neg h1, if_neg (by omega)]
    simp [hv]
  · unfold give safe_check_agreement
    rw [if_neg h1, if_neg (by omega)]
    simp [hv, hu]
  · unfold take safe_check_agreement
    rw [if_neg h1, if_neg (by omega)]
    simp [hv, hu]
  · intro h
    obtain ⟨h1, h2, h3, h4⟩ := give_ok_inv c caller other tid sig s h
    rw [give_ok_eq c caller other tid sig s h1 h2 h3 h4]
    unfold give safe_check_agreement
    rw [if_neg h1, if_neg (by simp; omega)]
    simp [h3, upd]
  · intro h
    obtain ⟨h1, h2, h3, h4⟩ := take_ok_inv c caller other tid sig s h
    rw [take_ok_eq c caller other tid sig s h1 h2 h3 h4]
    unfold take safe_check_agreement
    rw [if_neg h1, if_neg (by simp; omega)]
    simp [h3, upd]

/-- Witness for C4: resubmitting a concrete successful give fails with
`AgreementAlreadyUsed`. -/
theorem C4_check_order_amended_witness :
    (give cryptoId addrA addrB 0 sig0
        ((give cryptoId addrA addrB 0 sig0 st1).state)).result
      = .error .AgreementAlreadyUsed :=
  (C4_check_order_amended cryptoId addrA addrB 0 sig0 st1).2.1 (by decide)

/-- C7: after a successful `give(B, id, sig)` by `A`, the new owner `B`
can `uneqip` the token, and the identical `give(B, id, sig)` by `A` (same
signature) then succeeds again: `uneqip` clears the used flag, so a
consent is single-use only within one equip cycle. -/
theorem C7_replay_across_cycles (c : Crypto) (A B : Address) (tid : Nat) (sig : Bytes)
    (s : State) (h : (give c A B tid sig s).result = .ok tid) :
    (uneqip B tid (give c A B tid sig s).state).result = .ok () ∧
    (give c A B tid sig
        (uneqip B tid (give c A B tid sig s).state).state).result = .ok tid := by
  obtain ⟨h1, h2, h3, h4⟩ := give_ok_inv c A B tid sig s h
  have hg := give_ok_state c A B tid sig s h1 h2 h3 h4
  have hown : B = ((give c A B tid sig s).state).token_owner tid := by
    rw [hg]; simp [upd]
  have hnext : tid < ((give c A B tid sig s).state).next_token_id := by
    rw [hg]; exact h2
  have hu := uneqip_ok_state B tid ((give c A B tid sig s).state) hown hnext
  constructor
  · rw [uneqip_ok_eq B tid ((give c A B tid sig s).state) hown hnext]
  · have hused : ((uneqip B tid ((give c A B tid sig s).state)).state).used_hash tid
        = false := by
      rw [hu]; simp [upd]
    have hnext2 : tid < ((uneqip B tid ((give c A B tid sig s).state)).state).next_token_id := by
      rw [hu, hg]; exact h2
    rw [give_ok_eq c A B tid sig _ h1 hnext2 h3 hused]

/-- Witness for C7: the concrete give / unequip / same-signature give
sequence succeeds end to end. -/
theorem C7_replay_across_cycles_witness :
    (uneqip addrB 0 (give cryptoId addrA addrB 0 sig0 st1).state).result = .ok () ∧
    (give cryptoId addrA addrB 0 sig0
        (uneqip addrB 0 (give cryptoId addrA addrB 0 sig0 st1).state).state).result
      = .ok 0 :=
  C7_replay_across_cycles cryptoId addrA addrB 0 sig0 st1 (by decide)

/-- C9: a `give` or `take` whose counterpart equals the caller fails with
`SelfTransfer`, for every signature, used-flag state and storage: the
self-transfer check precedes both consent checks. -/
theorem C9_self_transfer (c : Crypto) (caller : Address) (tid : Nat) (sig : Bytes)
    (s : State) :
    (give c caller caller tid sig s).result = .error .SelfTransfer ∧
    (take c caller caller tid sig s).result = .error .SelfTransfer := by
  exact ⟨by simp [give], by simp [take]⟩

/-- C2: the claimed invariant `UsedFlag[id] = true → Owner[id] ≠ Null`
fails on the code at a concrete reachable state: from the freshly
initialised storage with one minted id, a single successful `take` by
`addrA` from `addrB` sets the used flag of token 0 while its owner is
still the zero address, because the take path never writes the ownership
record (contradicting the source's own doc comment that `take` transfers
the ownership to the caller). -/
theorem C2_invariant_refuted :
    Reachable st1 (take cryptoId addrA addrB 0 sig0 st1).state ∧
    (take cryptoId addrA addrB 0 sig0 st1).result = .ok 0 ∧
    (take cryptoId addrA addrB 0 sig0 st1).state.used_hash 0 = true ∧
    (take cryptoId addrA addrB 0 sig0 st1).state.token_owner 0 = zeroAddress := by
  refine ⟨Reachable.step Reachable.refl (Step.take cryptoId addrA addrB 0 sig0 st1),
    ?_, ?_, ?_⟩ <;> decide

/-- C8: for distinct fixed-length (32-byte) identities and any identifier,
swapping the active and passive roles changes the consent digest, under
the hypothesis that the hash function is injective (collision-free): the
two concatenated preimages differ already in their first 32 bytes. -/
theorem C8_digest_asymmetry (c : Crypto) (hinj : Function.Injective c.keccak256)
    (A B : Address) (hA : A.length = 32) (hB : B.length = 32) (hAB : A ≠ B)
    (i : Nat) :
    get_hash c A B i ≠ get_hash c B A i := by
  intro hEq
  unfold get_hash at hEq
  have hEq2 := hinj hEq
  rw [List.append_assoc, List.append_assoc] at hEq2
  exact hAB (List.append_inj_left hEq2 (hA.trans hB.symm))

/-- Witness for C8: with the identity function as hash the digests of the
two role orders differ at concrete addresses. -/
theorem C8_digest_asymmetry_witness :
    get_hash cryptoId addrA addrB 0 ≠ get_hash cryptoId addrB addrA 0 :=
  C8_digest_asymmetry cryptoId (fun _ _ hp => hp) addrA addrB (by decide) (by decide)
    (by decide) 0

/-- `give` touches neither the token name, the symbol, the id counter nor
any balance entry, whether it succeeds or fails. -/
theorem give_frame (c : Crypto) (caller other : Address) (tid : Nat) (sig : Bytes)
    (s : State) :
    (give c caller other tid sig s).state.token_name = s.token_name ∧
    (give c caller other tid sig s).state.token_symbol = s.token_symbol ∧
    (give c caller other tid sig s).state.next_token_id = s.next_token_id ∧
    (give c caller other tid sig s).state.balance = s.balance := by
  unfold give mint
  split
  · exact ⟨rfl, rfl, rfl, rfl⟩
  · split
    · exact ⟨rfl, rfl, rfl, rfl⟩
    · split <;> exact ⟨rfl, rfl, rfl, rfl⟩

/-- `take` touches neither the token name, the symbol, the id counter nor
any balance entry, whether it succeeds or fails. -/
theorem take_frame (c : Crypto) (caller other : Address) (tid : Nat) (sig : Bytes)
    (s : State) :
    (take c caller other tid sig s).state.token_name = s.token_name ∧
    (take c caller other tid sig s).state.token_symbol = s.token_symbol ∧
    (take c caller other tid sig s).state.next_token_id = s.next_token_id ∧
    (take c caller other tid sig s).state.balance = s.balance := by
  unfold take
  split
  · exact ⟨rfl, rfl, rfl, rfl⟩
  · split
    · exact ⟨rfl, rfl, rfl, rfl⟩
    · split <;> exact ⟨rfl, rfl, rfl, rfl⟩

/-- `uneqip` touches neither the token name, the symbol, the id counter
nor any balance entry, whether it succeeds or fails. -/
theorem uneqip_frame (caller : Address) (tid : Nat) (s : State) :
    (uneqip caller tid s).state.token_name = s.token_name ∧
    (uneqip caller tid s).state.token_symbol = s.token_symbol ∧
    (uneqip caller tid s).state.next_token_id = s.next_token_id ∧
    (uneqip caller tid s).state.balance = s.balance := by
  by_cases h1 : caller = s.token_owner tid
  · by_cases h2 : s.next_token_id ≤ tid
    · simp [uneqip, burn, h1, h2]
    · simp [uneqip, burn, h1, h2]
  · simp [uneqip, h1]

/-- Any single endpoint invocation preserves the name, symbol, id counter
and balance storages. -/
theorem step_frame {s s' : State} (h : Step s s') :
    s'.token_name = s.token_name ∧ s'.token_symbol = s.token_symbol ∧
    s'.next_token_id = s.next_token_id ∧ s'.balance = s.balance := by
  cases h with
  | give c caller toA token_id signature s => exact give_frame c caller toA token_id signature s
  | take c caller fromA token_id signature s => exact take_frame c caller fromA token_id signature s
  | uneqip caller token_id s => exact uneqip_frame caller token_id s

/-- In every state reachable from the initialised storage, every balance
entry is still the storage default zero. -/
theorem reachable_balance (name symbol : String) (n : Nat) (s' : State)
    (h : Reachable (initState name symbol n) s') (a : Address) :
    getUserBalance s' a = 0 := by
  induction h with
  | refl => rfl
  | step hr hs ih =>
      show State.balance _ a = 0
      rw [(step_frame hs).2.2.2]
      exact ih

/-- C10: no invocation of `give`, `take` or `uneqip` ever modifies
`next_token_id`, `token_name`, `token_symbol` or any balance entry, and in
every state reachable from the initialised storage `getUserBalance`
returns the storage default zero for every address. -/
theorem C10_interface_frame (c : Crypto) (caller other : Address) (tid : Nat)
    (sig : Bytes) (s : State) :
    ((give c caller other tid sig s).state.token_name = s.token_name ∧
     (give c caller other tid sig s).state.token_symbol = s.token_symbol ∧
     (give c caller other tid sig s).state.next_token_id = s.next_token_id ∧
     (give c caller other tid sig s).state.balance = s.balance) ∧
    ((take c caller other tid sig s).state.token_name = s.token_name ∧
     (take c caller other tid sig s).state.token_symbol = s.token_symbol ∧
     (take c caller other tid sig s).state.next_token_id = s.next_token_id ∧
     (take c caller other tid sig s).state.balance = s.balance) ∧
    ((uneqip caller tid s).state.token_name = s.token_name ∧
     (uneqip caller tid s).state.token_symbol = s.token_symbol ∧
     (uneqip caller tid s).state.next_token_id = s.next_token_id ∧
     (uneqip caller tid s).state.balance = s.balance) ∧
    (∀ (name symbol : String) (n : Nat) (s' : State),
      Reachable (initState name symbol n) s' → ∀ a, getUserBalance s' a = 0) :=
  ⟨give_frame c caller other tid sig s,
   take_frame c caller other tid sig s,
   uneqip_frame caller tid s,
   fun name symbol n s' h a => reachable_balance name symbol n s' h a⟩

/-- Witness for C10: after a concrete successful give, a balance lookup
still returns zero. -/
theorem C10_interface_frame_witness :
    getUserBalance (give cryptoId addrA addrB 0 sig0 st1).state addrA = 0 :=
  (C10_interface_frame cryptoId addrA addrB 0 sig0 st1).2.2.2 "CheckerSBT" "CSBT" 1 _
    (Reachable.step Reachable.refl (Step.give cryptoId addrA addrB 0 sig0 st1)) addrA

end Soulbound
